import Mathlib

/- Verification development for the semantic-segmentation image processor
   (multimodal/src/autogluon/multimodal/data/process_semantic_seg_img.py).

   The Python class `SemanticSegImageProcessor` is embedded shallowly below.
   External collaborators (PIL decoding, torchvision transform pipelines,
   the constants module) are modelled from the specification; every
   definition carrying such a model says so in its doc comment.  Everything
   else is translated directly from the source file. -/

namespace AutogluonSemSeg

/-- Constant `SEMANTIC_SEGMENTATION_IMG` from the repository constants module:
the modality tag of the input-image column. -/
def SEMANTIC_SEGMENTATION_IMG : String := "semantic_segmentation_img"

/-- Constant `SEMANTIC_SEGMENTATION_GT` from the repository constants module:
the modality tag of the ground-truth mask column. -/
def SEMANTIC_SEGMENTATION_GT : String := "semantic_segmentation_gt"

/-- Constant `IMAGE` from the repository constants module. -/
def IMAGE : String := "image"

/-- Constant `LABEL` from the repository constants module. -/
def LABEL : String := "label"

/-- Constant `IMAGE_VALID_NUM` from the repository constants module. -/
def IMAGE_VALID_NUM : String := "image_valid_num"

/-- Modelled from the spec: an Image Reference is "an opaque decodable handle
(file path, URL, or raw bytes) to a single image".  A string reference (file
path or URL) is distinguished from a raw-bytes reference because the
Processor Facade tests `isinstance(v, str)`.  `id` identifies the underlying
source image (provenance only); `ok` says whether the external decoder
(`PIL.Image.open` plus `convert`) succeeds on this handle. -/
inductive ImgRef where
  | str (id : Nat) (ok : Bool)
  | bytes (id : Nat) (ok : Bool)
deriving DecidableEq, Repr

/-- Provenance identity of a reference. -/
def ImgRef.refId : ImgRef → Nat
  | .str i _ => i
  | .bytes i _ => i

/-- Whether the external decoder succeeds on this reference. -/
def ImgRef.decodable : ImgRef → Bool
  | .str _ ok => ok
  | .bytes _ ok => ok

/-- Modelled from the spec: a Decoded Image is "an in-memory pixel buffer with
a pixel-format mode".  `srcId` is the provenance of the buffer, `mode` the
pixel mode passed to `convert`; `flips` counts horizontal flips applied so
far and `trainApplied` records that the composed augmentation transform was
invoked on this buffer (both are provenance instrumentation for theorems). -/
structure DecodedImg where
  srcId : Nat
  mode : String
  flips : Nat
  trainApplied : Bool
deriving DecidableEq, Repr

/-- Modelled from the spec: decoding one image reference, i.e.
`PIL.Image.open(feature)` followed by `convert(mode)`.  It fails (raises)
exactly on references the external decoder cannot read, and otherwise yields
the pixel buffer in the requested mode. -/
def decodeImage (r : ImgRef) (mode : String) : Option DecodedImg :=
  if r.decodable then some ⟨r.refId, mode, 0, false⟩ else none

/-- Embeds `torchvision.transforms.RandomHorizontalFlip(1.0)`: with
probability 1.0 the input is flipped horizontally, so the operation is a
deterministic horizontal flip. -/
def horizontalFlip (d : DecodedImg) : DecodedImg :=
  { d with flips := d.flips + 1 }

/-- Embeds `SemanticSegImageProcessor.get_train_transforms`: scan the
configured names and append a deterministic horizontal flip for every
occurrence of "random_horizontal_flip"; unrecognized names contribute
nothing.  The resulting list is the content of the returned
`transforms.Compose` object. -/
def get_train_transforms (train_transforms : List String) :
    List (DecodedImg → DecodedImg) :=
  train_transforms.foldl
    (fun train_trans trans_mode =>
      if trans_mode = "random_horizontal_flip" then train_trans ++ [horizontalFlip]
      else train_trans)
    []

/-- Embeds invocation of the composed `transforms.Compose` object built by
`get_train_transforms`: the sub-transforms run left to right.  Invocation is
recorded in the `trainApplied` flag (provenance instrumentation). -/
def applyTrainTransforms (tt : List (DecodedImg → DecodedImg))
    (d : DecodedImg) : DecodedImg :=
  tt.foldl (fun x f => f x) { d with trainApplied := true }

/-- Modelled from the spec: a Processed Tensor is "a normalized, fixed-size,
channel-first numeric array; for an image role it has 3 channels, for a mask
role 1 channel", and per the spec example scenario (image tensor shape
[2,3,S,S] for two images) each processed item contributes leading dimension
1 to the stacked tensor.  Provenance (`srcId`), flips and the
train-transform flag are kept so that theorems can trace every stacked entry
back to its source reference. -/
structure ProcessedTensor where
  srcId : Nat
  channels : Nat
  flips : Nat
  trainApplied : Bool
deriving DecidableEq, Repr

/-- Modelled from the spec: the image pipeline built by
`construct_image_processor(img_transforms, size, normalization)` — maps a
decoded image to a normalized fixed-size processed tensor with 3 channels,
preserving provenance. -/
def img_processor (d : DecodedImg) : ProcessedTensor :=
  ⟨d.srcId, 3, d.flips, d.trainApplied⟩

/-- Modelled from the spec: the mask pipeline built by
`construct_image_processor(gt_transforms, size, None)` (no normalization) —
maps a decoded mask to a fixed-size processed tensor with 1 channel,
preserving provenance. -/
def gt_processor (d : DecodedImg) : ProcessedTensor :=
  ⟨d.srcId, 1, d.flips, d.trainApplied⟩

/-- Modelled from the spec: `torch.cat(ts, dim=0)` over per-item processed
tensors, each of leading dimension 1, yields a stacked tensor whose leading
dimension is the number of items; the stacked tensor is represented by the
list of its leading-dimension slices, so the leading dimension is the list
length (an empty list is `torch.tensor([])`). -/
def leadingDim (ts : List ProcessedTensor) : Nat := ts.length

/-- Embeds the configuration state stored by
`SemanticSegImageProcessor.__init__`.  `prefx` is the model prefix used to
namespace output keys, `train_transform_names` the raw list whose composed
form `self.train_transforms = self.get_train_transforms(train_transforms)`
is recovered by applying `get_train_transforms`.  The normalization mean/std
and the built img/gt pipelines are external collaborators modelled by
`img_processor` and `gt_processor` above. -/
structure SemanticSegImageProcessor where
  prefx : String
  image_size : Nat
  img_transforms : List String
  gt_transforms : List String
  train_transform_names : List String
  norm_type : Option String
  max_img_num_per_col : Nat
  missing_value_strategy : String
  requires_column_info : Bool
deriving DecidableEq, Repr

/-- Embeds `SemanticSegImageProcessor.__init__`: all arguments are stored;
a non-positive `max_img_num_per_col` is reset to 1 (with a debug log) rather
than rejected, and the stored value is the reset one.  The constructor is
total: it never raises. -/
def SemanticSegImageProcessor.init (prefx : String) (image_size : Nat)
    (img_transforms gt_transforms train_transforms : List String)
    (norm_type : Option String) (max_img_num_per_col : Int)
    (missing_value_strategy : String) (requires_column_info : Bool) :
    SemanticSegImageProcessor :=
  let m := if max_img_num_per_col ≤ 0 then 1 else max_img_num_per_col
  { prefx := prefx
    image_size := image_size
    img_transforms := img_transforms
    gt_transforms := gt_transforms
    train_transform_names := train_transforms
    norm_type := norm_type
    max_img_num_per_col := m.toNat
    missing_value_strategy := missing_value_strategy
    requires_column_info := requires_column_info }

/-- Embeds the `image_key` property: `f"{self.prefix}_{IMAGE}"`. -/
def image_key (P : SemanticSegImageProcessor) : String :=
  P.prefx ++ "_" ++ IMAGE

/-- Embeds the `label_key` property: `f"{self.prefix}_{LABEL}"`. -/
def label_key (P : SemanticSegImageProcessor) : String :=
  P.prefx ++ "_" ++ LABEL

/-- Embeds the `image_valid_num_key` property:
`f"{self.prefix}_{IMAGE_VALID_NUM}"`. -/
def image_valid_num_key (P : SemanticSegImageProcessor) : String :=
  P.prefx ++ "_" ++ IMAGE_VALID_NUM

/-- Collation strategies produced by `collate_fn`: `PadCollator(pad_val=0)`
or `StackCollator()` (external primitives, represented by their identity and
configuration). -/
inductive Collator where
  | pad (pad_val : Nat)
  | stack
deriving DecidableEq, Repr

/-- Result of a call to `collate_fn`.  The Python function either returns a
`NotImplementedError` exception object (note: returns it, does not raise it)
or returns the dictionary of per-key collators. -/
inductive CollateFnResult where
  | notImplementedError (msg : String)
  | mapping (fn : List (String × Collator))
deriving DecidableEq, Repr

/-- Embeds `SemanticSegImageProcessor.collate_fn`: when
`requires_column_info` is set the function immediately produces a
`NotImplementedError` (the source returns the exception object); otherwise
it returns the mapping from the three output keys to their collators, in
insertion order. -/
def collate_fn (P : SemanticSegImageProcessor) : CollateFnResult :=
  if P.requires_column_info then
    CollateFnResult.notImplementedError
      "requires_column_info=True not implemented for semantic segmentation tasks."
  else
    CollateFnResult.mapping
      [(image_key P, Collator.pad 0),
       (image_valid_num_key P, Collator.stack),
       (label_key P, Collator.pad 0)]

/-- Python exceptions that `process_one_sample` can raise. -/
inductive PyError where
  | keyError
  | nameError
  | indexError
  | decodeError
deriving DecidableEq, Repr

/-- Python dictionary lookup on an insertion-ordered association list
(`d[k]`): the value of the first entry with key `k`, or `none` (KeyError at
the call site) when the key is absent. -/
def dictGet {α : Type} (d : List (String × α)) (k : String) : Option α :=
  (d.find? (fun p => p.1 == k)).map Prod.snd

/-- Python truthiness of the `annotation_column` variable (`if
annotation_column:`): `None` and the empty string are falsy, any other
string is truthy. -/
def pyTruthyStr : Option String → Bool
  | none => false
  | some s => !(s == "")

/-- Embeds the column-resolution scan at the top of `process_one_sample`:
one pass over `feature_modalities.items()`; a column tagged
`SEMANTIC_SEGMENTATION_IMG` becomes the image column and a column tagged
`SEMANTIC_SEGMENTATION_GT` becomes the annotation (mask) column, the last
tagged column of each kind winning.  The first component is `none` exactly
when `image_column` was never assigned (a NameError at its use site); the
second starts as Python `None`. -/
def resolveColumns (feature_modalities : List (String × String)) :
    Option String × Option String :=
  feature_modalities.foldl
    (fun st p =>
      let st1 := if p.2 = SEMANTIC_SEGMENTATION_IMG then (some p.1, st.2) else st
      if p.2 = SEMANTIC_SEGMENTATION_GT then (st1.1, some p.1) else st1)
    (none, none)

/-- Embeds the mask-decoding block of one loop iteration (source lines
`if annotation_column: gt_feature = per_col_gt_features[idx]; ... open ...
convert("L")`).  When `annotation_column` is truthy: an unbound
`per_col_gt_features` is a NameError, an out-of-range `idx` an IndexError,
and a decode failure propagates as a decoding error; otherwise no mask is
decoded. -/
def decodeGtStep (ac : Option String) (gtFeats : Option (List ImgRef))
    (idx : Nat) : Except PyError (Option DecodedImg) :=
  if pyTruthyStr ac then
    match gtFeats with
    | none => Except.error PyError.nameError
    | some fs =>
      match fs.get? idx with
      | none => Except.error PyError.indexError
      | some gt_feature =>
        match decodeImage gt_feature "L" with
        | none => Except.error PyError.decodeError
        | some gt => Except.ok (some gt)
  else Except.ok none

/-- Embeds the body of one iteration of the loop in `process_one_sample` for
item `(idx, r)`: image decode failure means `continue` (result `ok none`);
otherwise the mask is decoded when `annotation_column` is truthy, then in
training mode the coin (`random.random() < 0.5`, here the supplied `coin`)
gates the composed train transform on both image and mask, both pipelines
run (an unbound mask variable `gt` is a NameError), while outside training
the image pipeline always runs and the mask pipeline runs only when
`annotation_column is not None`.  The result carries the appended processed
image and, when one is computed, the appended processed mask. -/
def processItem (tt : List (DecodedImg → DecodedImg)) (is_training : Bool)
    (ac : Option String) (gtFeats : Option (List ImgRef)) (image_mode : String)
    (coin : Bool) (idx : Nat) (r : ImgRef) :
    Except PyError (Option (ProcessedTensor × Option ProcessedTensor)) :=
  match decodeImage r image_mode with
  | none => Except.ok none
  | some img0 =>
    match decodeGtStep ac gtFeats idx with
    | Except.error e => Except.error e
    | Except.ok gtOpt =>
      if is_training then
        match (if coin then
                 match gtOpt with
                 | none => Except.error PyError.nameError
                 | some g =>
                   Except.ok (applyTrainTransforms tt img0,
                              some (applyTrainTransforms tt g))
               else Except.ok (img0, gtOpt)) with
        | Except.error e => Except.error e
        | Except.ok (img1, gtOpt1) =>
          match gtOpt1 with
          | none => Except.error PyError.nameError
          | some g1 =>
            Except.ok (some (img_processor img1, some (gt_processor g1)))
      else
        if ac.isSome then
          match gtOpt with
          | none => Except.error PyError.nameError
          | some g => Except.ok (some (img_processor img0, some (gt_processor g)))
        else Except.ok (some (img_processor img0, none))

/-- Embeds the whole `for idx, img_feature in enumerate(...)` loop of
`process_one_sample`, threading the `images` and `gts` accumulators and the
count of `random.random()` draws consumed so far (`rng n` models the truth
of the n-th draw being < 0.5; a draw is consumed per successfully decoded
image in training mode). -/
def processLoop (tt : List (DecodedImg → DecodedImg)) (is_training : Bool)
    (ac : Option String) (gtFeats : Option (List ImgRef)) (image_mode : String)
    (rng : Nat → Bool) :
    List (Nat × ImgRef) →
    List ProcessedTensor × List ProcessedTensor × Nat →
    Except PyError (List ProcessedTensor × List ProcessedTensor)
  | [], (images, gts, _) => Except.ok (images, gts)
  | (idx, r) :: rest, (images, gts, cnt) =>
    match processItem tt is_training ac gtFeats image_mode (rng cnt) idx r with
    | Except.error e => Except.error e
    | Except.ok none =>
      processLoop tt is_training ac gtFeats image_mode rng rest (images, gts, cnt)
    | Except.ok (some (imgP, gtP)) =>
      processLoop tt is_training ac gtFeats image_mode rng rest
        (images ++ [imgP],
         (match gtP with
          | some g => gts ++ [g]
          | none => gts),
         if is_training then cnt + 1 else cnt)

/-- Embeds the fetch `per_col_gt_features = image_features[annotation_column]`
guarded by `if is_training or annotation_column is not None`: indexing the
dict with Python `None` or with an absent key is a KeyError; when the guard
is false the variable stays unbound (`none`). -/
def fetchGtFeatures (image_features : List (String × List ImgRef))
    (is_training : Bool) (ac : Option String) :
    Except PyError (Option (List ImgRef)) :=
  if is_training || ac.isSome then
    match ac with
    | none => Except.error PyError.keyError
    | some a =>
      match dictGet image_features a with
      | none => Except.error PyError.keyError
      | some fs => Except.ok (some fs)
  else Except.ok none

/-- Embeds the Sample Output Record returned by `process_one_sample`: the
dictionary `{image_key: cat(images) or empty, image_valid_num_key:
len(images), label_key: cat(gts) or empty}` (keys namespaced by the model
prefix; the stacked tensors are represented as in `leadingDim`). -/
structure SampleRet where
  image_tensor : List ProcessedTensor
  image_valid_num : Nat
  label_tensor : List ProcessedTensor
deriving DecidableEq, Repr

/-- Embeds `SemanticSegImageProcessor.process_one_sample`.  The column scan
resolves the image and annotation columns (an unassigned `image_column` is a
NameError at `image_features[image_column]`); the ground-truth reference
list is fetched when training or when an annotation column exists; the
reference list is truncated to `max_img_num_per_col` entries and enumerated;
the loop processes each retained item; finally the record of stacked images,
valid count `len(images)` and stacked masks is returned. -/
def process_one_sample (P : SemanticSegImageProcessor)
    (image_features : List (String × List ImgRef))
    (feature_modalities : List (String × String))
    (is_training : Bool) (image_mode : String) (rng : Nat → Bool) :
    Except PyError SampleRet :=
  match resolveColumns feature_modalities with
  | (none, _) => Except.error PyError.nameError
  | (some image_column, ac) =>
    match dictGet image_features image_column with
    | none => Except.error PyError.keyError
    | some per_col_image_features =>
      match fetchGtFeatures image_features is_training ac with
      | Except.error e => Except.error e
      | Except.ok gtFeats =>
        match processLoop (get_train_transforms P.train_transform_names)
            is_training ac gtFeats image_mode rng
            ((per_col_image_features.take P.max_img_num_per_col).enum)
            ([], [], 0) with
        | Except.error e => Except.error e
        | Except.ok (images, gts) =>
          Except.ok ⟨images, images.length, gts⟩

/-- Value of one entry of the `images` argument of `__call__`: per its
signature, either a single reference or a list of references. -/
inductive CallValue where
  | single (r : ImgRef)
  | list (rs : List ImgRef)
deriving DecidableEq, Repr

/-- Embeds the comprehension value `[v] if isinstance(v, str) else v` of
`__call__`: `isinstance(v, str)` holds exactly for a single string
reference (a Python list is not a `str`, and `bytes`/`bytearray` values are
not `str` either), which is wrapped into a one-element list; every other
value is passed through unchanged. -/
def pyWrapIfStr (v : CallValue) : CallValue :=
  match v with
  | CallValue.single (ImgRef.str s ok) => CallValue.list [ImgRef.str s ok]
  | w => w

/-- Embeds the input normalization performed by `__call__` before it
delegates to `process_one_sample`:
`images = {k: [v] if isinstance(v, str) else v for k, v in images.items()}`. -/
def callNormalize (images : List (String × CallValue)) :
    List (String × CallValue) :=
  images.map (fun kv => (kv.1, pyWrapIfStr kv.2))

/- Proof infrastructure: the expected accumulator contents of an error-free
run of the loop, and characterization lemmas for `processLoop`. -/

/-- Conditional application of the composed train transform, as performed by
one training iteration when the coin succeeds. -/
def augOf (tt : List (DecodedImg → DecodedImg)) (coin : Bool)
    (d : DecodedImg) : DecodedImg :=
  if coin then applyTrainTransforms tt d else d

/-- Expected image accumulator extension for a run of the loop in which every
item decodes successfully: one processed image per item, with the coin for
the item at relative position j drawn at counter `cnt + j` in training
mode. -/
def imgsExp (tt : List (DecodedImg → DecodedImg)) (tr : Bool) (mode : String)
    (rng : Nat → Bool) : Nat → List ImgRef → List ProcessedTensor
  | _, [] => []
  | cnt, r :: rest =>
    img_processor (augOf tt (tr && rng cnt) ⟨r.refId, mode, 0, false⟩)
      :: imgsExp tt tr mode rng (if tr then cnt + 1 else cnt) rest

/-- Expected mask accumulator extension for an error-free run with a truthy
annotation column: one processed mask per item, the mask for the item with
source index n taken from `fs.get? n`. -/
def gtsExp (tt : List (DecodedImg → DecodedImg)) (tr : Bool)
    (fs : List ImgRef) (rng : Nat → Bool) :
    Nat → Nat → List ImgRef → List ProcessedTensor
  | _, _, [] => []
  | n, cnt, _ :: rest =>
    gt_processor (augOf tt (tr && rng cnt)
        ⟨((fs.get? n).getD (ImgRef.str 0 false)).refId, "L", 0, false⟩)
      :: gtsExp tt tr fs rng (n + 1) (if tr then cnt + 1 else cnt) rest

theorem imgsExp_length (tt : List (DecodedImg → DecodedImg)) (tr : Bool)
    (mode : String) (rng : Nat → Bool) (feats : List ImgRef) :
    ∀ cnt : Nat, (imgsExp tt tr mode rng cnt feats).length = feats.length := by
  induction feats with
  | nil => intro cnt; rfl
  | cons r rest ih => intro cnt; simp [imgsExp, ih]

theorem gtsExp_length (tt : List (DecodedImg → DecodedImg)) (tr : Bool)
    (fs : List ImgRef) (rng : Nat → Bool) (feats : List ImgRef) :
    ∀ n cnt : Nat, (gtsExp tt tr fs rng n cnt feats).length = feats.length := by
  induction feats with
  | nil => intro n cnt; rfl
  | cons r rest ih => intro n cnt; simp [gtsExp, ih]

theorem imgsExp_channels (tt : List (DecodedImg → DecodedImg)) (tr : Bool)
    (mode : String) (rng : Nat → Bool) (feats : List ImgRef) :
    ∀ cnt : Nat, ∀ pt ∈ imgsExp tt tr mode rng cnt feats, pt.channels = 3 := by
  induction feats with
  | nil => intro cnt pt h; simp [imgsExp] at h
  | cons r rest ih =>
    intro cnt pt h
    simp only [imgsExp, List.mem_cons] at h
    rcases h with h | h
    · subst h; rfl
    · exact ih _ pt h

/-- Every element of the composed train-transform list is the deterministic
horizontal flip. -/
theorem get_train_transforms_mem (ns : List String) :
    ∀ f ∈ get_train_transforms ns, f = horizontalFlip := by
  have key : ∀ (ns : List String) (acc : List (DecodedImg → DecodedImg)),
      (∀ f ∈ acc, f = horizontalFlip) →
      ∀ f ∈ ns.foldl
        (fun train_trans trans_mode =>
          if trans_mode = "random_horizontal_flip" then train_trans ++ [horizontalFlip]
          else train_trans) acc, f = horizontalFlip := by
    intro ns
    induction ns with
    | nil => intro acc hacc f hf; exact hacc f hf
    | cons n rest ih =>
      intro acc hacc f hf
      simp only [List.foldl_cons] at hf
      by_cases hn : n = "random_horizontal_flip"
      · refine ih _ ?_ f (by simpa [hn] using hf)
        intro g hg
        rcases List.mem_append.1 hg with hg | hg
        · exact hacc g hg
        · simpa using hg
      · exact ih _ hacc f (by simpa [hn] using hf)
  exact key ns [] (by intro f hf; simp at hf)

/-- A fold of horizontal flips adds the list length to the flip counter and
changes nothing else. -/
theorem foldl_flips (tt : List (DecodedImg → DecodedImg))
    (h : ∀ f ∈ tt, f = horizontalFlip) :
    ∀ d : DecodedImg, tt.foldl (fun x f => f x) d
      = ⟨d.srcId, d.mode, d.flips + tt.length, d.trainApplied⟩ := by
  induction tt with
  | nil => intro d; rfl
  | cons f rest ih =>
    intro d
    have hf : f = horizontalFlip := h f (List.mem_cons_self _ _)
    have hrest : ∀ g ∈ rest, g = horizontalFlip := fun g hg =>
      h g (List.mem_cons_of_mem _ hg)
    simp only [List.foldl_cons, hf, horizontalFlip, ih hrest]
    simp only [List.length_cons]
    congr 1
    omega

/-- Applying the composed train transform built from a name list: the flip
counter grows by the number of recognized names and the invocation flag is
set; provenance and mode are preserved. -/
theorem applyTrainTransforms_get (ns : List String) (d : DecodedImg) :
    applyTrainTransforms (get_train_transforms ns) d
      = ⟨d.srcId, d.mode, d.flips + (get_train_transforms ns).length, true⟩ := by
  unfold applyTrainTransforms
  exact foldl_flips _ (get_train_transforms_mem ns) _

theorem augOf_get_srcId (ns : List String) (coin : Bool) (d : DecodedImg) :
    (augOf (get_train_transforms ns) coin d).srcId = d.srcId := by
  unfold augOf
  by_cases h : coin <;> simp [h, applyTrainTransforms_get]

theorem imgsExp_srcId (ns : List String) (tr : Bool) (mode : String)
    (rng : Nat → Bool) (feats : List ImgRef) :
    ∀ cnt j : Nat,
      ((imgsExp (get_train_transforms ns) tr mode rng cnt feats).get? j).map
          ProcessedTensor.srcId
        = (feats.get? j).map ImgRef.refId := by
  induction feats with
  | nil => intro cnt j; rfl
  | cons r rest ih =>
    intro cnt j
    cases j with
    | zero =>
      simp [imgsExp, img_processor, augOf_get_srcId]
    | succ j =>
      simp only [imgsExp, List.get?_cons_succ]
      exact ih _ j

theorem gtsExp_srcId (ns : List String) (tr : Bool) (fs : List ImgRef)
    (rng : Nat → Bool) (feats : List ImgRef) :
    ∀ n cnt j : Nat, j < feats.length →
      ((gtsExp (get_train_transforms ns) tr fs rng n cnt feats).get? j).map
          ProcessedTensor.srcId
        = some (((fs.get? (n + j)).getD (ImgRef.str 0 false)).refId) := by
  induction feats with
  | nil => intro n cnt j hj; simp at hj
  | cons r rest ih =>
    intro n cnt j hj
    cases j with
    | zero =>
      simp [gtsExp, gt_processor, augOf_get_srcId]
    | succ j =>
      simp only [gtsExp, List.get?_cons_succ]
      have h2 := ih (n + 1) (if tr then cnt + 1 else cnt) j
        (by simpa using Nat.lt_of_succ_lt_succ hj)
      have hn : n + (j + 1) = (n + 1) + j := by omega
      rw [hn]
      exact h2

/-- One iteration on an item whose image reference the decoder cannot read:
the `except` clause executes `continue`, so the iteration is a no-op. -/
theorem processItem_skip (tt : List (DecodedImg → DecodedImg)) (tr : Bool)
    (ac : Option String) (gtFeats : Option (List ImgRef)) (mode : String)
    (coin : Bool) (idx : Nat) (r : ImgRef) (hr : r.decodable = false) :
    processItem tt tr ac gtFeats mode coin idx r = Except.ok none := by
  unfold processItem decodeImage
  simp [hr]

/-- One iteration with a truthy annotation column in which both the image and
its mask decode: the processed pair is appended, with the coin gating the
shared train transform in training mode. -/
theorem processItem_ok_gt (tt : List (DecodedImg → DecodedImg)) (tr : Bool)
    (a : String) (fs : List ImgRef) (mode : String) (coin : Bool) (idx : Nat)
    (r gf : ImgRef) (ha : ¬ a = "") (hr : r.decodable = true)
    (hgf : fs.get? idx = some gf) (hgfd : gf.decodable = true) :
    processItem tt tr (some a) (some fs) mode coin idx r
      = Except.ok (some
          (img_processor (augOf tt (tr && coin) ⟨r.refId, mode, 0, false⟩),
           some (gt_processor (augOf tt (tr && coin) ⟨gf.refId, "L", 0, false⟩)))) := by
  have hgf2 : fs[idx]? = some gf := by
    rw [← List.get?_eq_getElem?]; exact hgf
  unfold processItem decodeGtStep decodeImage pyTruthyStr augOf
  cases tr <;> cases coin <;> simp [hr, hgf2, hgfd, ha]

/-- One iteration outside training with no annotation column in which the
image decodes: the processed image is appended and no mask is touched. -/
theorem processItem_ok_noGt (tt : List (DecodedImg → DecodedImg))
    (gtFeats : Option (List ImgRef)) (mode : String) (coin : Bool) (idx : Nat)
    (r : ImgRef) (hr : r.decodable = true) :
    processItem tt false none gtFeats mode coin idx r
      = Except.ok (some (img_processor ⟨r.refId, mode, 0, false⟩, none)) := by
  unfold processItem decodeGtStep decodeImage pyTruthyStr
  simp [hr]

/-- One iteration with a truthy annotation column in which the image decodes
but its paired mask does not: the decoding error propagates. -/
theorem processItem_gtFail (tt : List (DecodedImg → DecodedImg)) (tr : Bool)
    (a : String) (fs : List ImgRef) (mode : String) (coin : Bool) (idx : Nat)
    (r gf : ImgRef) (ha : ¬ a = "") (hr : r.decodable = true)
    (hgf : fs.get? idx = some gf) (hgfd : gf.decodable = false) :
    processItem tt tr (some a) (some fs) mode coin idx r
      = Except.error PyError.decodeError := by
  have hgf2 : fs[idx]? = some gf := by
    rw [← List.get?_eq_getElem?]; exact hgf
  unfold processItem decodeGtStep decodeImage pyTruthyStr
  simp [hr, hgf2, hgfd, ha]

theorem processLoop_cons_of_item_ok_some (tt : List (DecodedImg → DecodedImg))
    (tr : Bool) (ac : Option String) (gtFeats : Option (List ImgRef))
    (mode : String) (rng : Nat → Bool) (idx : Nat) (r : ImgRef)
    (rest : List (Nat × ImgRef)) (imgs gts : List ProcessedTensor) (cnt : Nat)
    (iP gP : ProcessedTensor)
    (h : processItem tt tr ac gtFeats mode (rng cnt) idx r
          = Except.ok (some (iP, some gP))) :
    processLoop tt tr ac gtFeats mode rng ((idx, r) :: rest) (imgs, gts, cnt)
      = processLoop tt tr ac gtFeats mode rng rest
          (imgs ++ [iP], gts ++ [gP], if tr then cnt + 1 else cnt) := by
  simp only [processLoop, h]

theorem processLoop_cons_of_item_ok_none (tt : List (DecodedImg → DecodedImg))
    (tr : Bool) (ac : Option String) (gtFeats : Option (List ImgRef))
    (mode : String) (rng : Nat → Bool) (idx : Nat) (r : ImgRef)
    (rest : List (Nat × ImgRef)) (imgs gts : List ProcessedTensor) (cnt : Nat)
    (iP : ProcessedTensor)
    (h : processItem tt tr ac gtFeats mode (rng cnt) idx r
          = Except.ok (some (iP, none))) :
    processLoop tt tr ac gtFeats mode rng ((idx, r) :: rest) (imgs, gts, cnt)
      = processLoop tt tr ac gtFeats mode rng rest
          (imgs ++ [iP], gts, if tr then cnt + 1 else cnt) := by
  simp only [processLoop, h]

theorem processLoop_cons_of_item_skip (tt : List (DecodedImg → DecodedImg))
    (tr : Bool) (ac : Option String) (gtFeats : Option (List ImgRef))
    (mode : String) (rng : Nat → Bool) (idx : Nat) (r : ImgRef)
    (rest : List (Nat × ImgRef)) (imgs gts : List ProcessedTensor) (cnt : Nat)
    (h : processItem tt tr ac gtFeats mode (rng cnt) idx r = Except.ok none) :
    processLoop tt tr ac gtFeats mode rng ((idx, r) :: rest) (imgs, gts, cnt)
      = processLoop tt tr ac gtFeats mode rng rest (imgs, gts, cnt) := by
  simp only [processLoop, h]

theorem processLoop_cons_of_item_error (tt : List (DecodedImg → DecodedImg))
    (tr : Bool) (ac : Option String) (gtFeats : Option (List ImgRef))
    (mode : String) (rng : Nat → Bool) (idx : Nat) (r : ImgRef)
    (rest : List (Nat × ImgRef)) (imgs gts : List ProcessedTensor) (cnt : Nat)
    (e : PyError)
    (h : processItem tt tr ac gtFeats mode (rng cnt) idx r = Except.error e) :
    processLoop tt tr ac gtFeats mode rng ((idx, r) :: rest) (imgs, gts, cnt)
      = Except.error e := by
  simp only [processLoop, h]

/-- Error-free run of a loop segment with a truthy annotation column: every
image and every paired mask decodes, so the accumulators grow by exactly the
expected lists and control reaches the remaining items. -/
theorem processLoop_prefix_gt (tt : List (DecodedImg → DecodedImg)) (tr : Bool)
    (a : String) (fs : List ImgRef) (mode : String) (rng : Nat → Bool)
    (feats1 : List ImgRef) (ha : ¬ a = "") :
    ∀ (n cnt : Nat) (rest : List (Nat × ImgRef))
      (imgs gts : List ProcessedTensor),
      (∀ r ∈ feats1, r.decodable = true) →
      (∀ j, j < feats1.length →
        ∃ gf, fs.get? (n + j) = some gf ∧ gf.decodable = true) →
      processLoop tt tr (some a) (some fs) mode rng
          (List.enumFrom n feats1 ++ rest) (imgs, gts, cnt)
        = processLoop tt tr (some a) (some fs) mode rng rest
            (imgs ++ imgsExp tt tr mode rng cnt feats1,
             gts ++ gtsExp tt tr fs rng n cnt feats1,
             cnt + (if tr then feats1.length else 0)) := by
  induction feats1 with
  | nil =>
    intro n cnt rest imgs gts h1 h2
    cases tr <;> simp [imgsExp, gtsExp, List.enumFrom]
  | cons r rest1 ih =>
    intro n cnt rest imgs gts h1 h2
    have hr : r.decodable = true := h1 r (List.mem_cons_self _ _)
    obtain ⟨gf, hgf, hgfd⟩ := h2 0 (Nat.succ_pos _)
    rw [Nat.add_zero] at hgf
    have hstep := processItem_ok_gt tt tr a fs mode (rng cnt) n r gf ha hr hgf hgfd
    have hcons : List.enumFrom n (r :: rest1) ++ rest
        = (n, r) :: (List.enumFrom (n + 1) rest1 ++ rest) := by
      simp [List.enumFrom]
    rw [hcons, processLoop_cons_of_item_ok_some tt tr (some a) (some fs) mode rng n r
      (List.enumFrom (n + 1) rest1 ++ rest) imgs gts cnt _ _ hstep]
    have h1r : ∀ x ∈ rest1, x.decodable = true := fun x hx =>
      h1 x (List.mem_cons_of_mem _ hx)
    have h2r : ∀ j, j < rest1.length →
        ∃ gf2, fs.get? ((n + 1) + j) = some gf2 ∧ gf2.decodable = true := by
      intro j hj
      have := h2 (j + 1) (by simpa using Nat.succ_lt_succ hj)
      have hn : n + (j + 1) = (n + 1) + j := by omega
      rwa [hn] at this
    rw [ih (n + 1) (if tr then cnt + 1 else cnt)
      rest (imgs ++ [img_processor (augOf tt (tr && rng cnt) ⟨r.refId, mode, 0, false⟩)])
      (gts ++ [gt_processor (augOf tt (tr && rng cnt) ⟨gf.refId, "L", 0, false⟩)])
      h1r h2r]
    have hgf2 : fs[n]? = some gf := by
      rw [← List.get?_eq_getElem?]; exact hgf
    have himgs : imgs ++ [img_processor (augOf tt (tr && rng cnt) ⟨r.refId, mode, 0, false⟩)]
          ++ imgsExp tt tr mode rng (if tr then cnt + 1 else cnt) rest1
        = imgs ++ imgsExp tt tr mode rng cnt (r :: rest1) := by
      simp [imgsExp]
    have hgts : gts ++ [gt_processor (augOf tt (tr && rng cnt) ⟨gf.refId, "L", 0, false⟩)]
          ++ gtsExp tt tr fs rng (n + 1) (if tr then cnt + 1 else cnt) rest1
        = gts ++ gtsExp tt tr fs rng n cnt (r :: rest1) := by
      simp [gtsExp, hgf2]
    have harith : ((if tr then cnt + 1 else cnt) + (if tr then rest1.length else 0))
        = cnt + (if tr then (r :: rest1).length else 0) := by
      cases tr
      · simp
      · simp
        omega
    rw [himgs, hgts, harith]

/-- Error-free run of a loop segment outside training with no annotation
column: every image decodes, the image accumulator grows by the expected
list, the mask accumulator and the draw counter stay unchanged. -/
theorem processLoop_prefix_noGt (tt : List (DecodedImg → DecodedImg))
    (gtFeats : Option (List ImgRef)) (mode : String) (rng : Nat → Bool)
    (feats1 : List ImgRef) :
    ∀ (n cnt : Nat) (rest : List (Nat × ImgRef))
      (imgs gts : List ProcessedTensor),
      (∀ r ∈ feats1, r.decodable = true) →
      processLoop tt false none gtFeats mode rng
          (List.enumFrom n feats1 ++ rest) (imgs, gts, cnt)
        = processLoop tt false none gtFeats mode rng rest
            (imgs ++ imgsExp tt false mode rng cnt feats1, gts, cnt) := by
  induction feats1 with
  | nil =>
    intro n cnt rest imgs gts h1
    simp [imgsExp, List.enumFrom]
  | cons r rest1 ih =>
    intro n cnt rest imgs gts h1
    have hr : r.decodable = true := h1 r (List.mem_cons_self _ _)
    have hstep := processItem_ok_noGt tt gtFeats mode (rng cnt) n r hr
    have hcons : List.enumFrom n (r :: rest1) ++ rest
        = (n, r) :: (List.enumFrom (n + 1) rest1 ++ rest) := by
      simp [List.enumFrom]
    rw [hcons, processLoop_cons_of_item_ok_none tt false none gtFeats mode rng n r
      (List.enumFrom (n + 1) rest1 ++ rest) imgs gts cnt _ hstep]
    have h1r : ∀ x ∈ rest1, x.decodable = true := fun x hx =>
      h1 x (List.mem_cons_of_mem _ hx)
    rw [show (if (false : Bool) then cnt + 1 else cnt) = cnt from rfl]
    rw [ih (n + 1) cnt rest (imgs ++ [img_processor ⟨r.refId, mode, 0, false⟩]) gts h1r]
    have himgs : imgs ++ [img_processor ⟨r.refId, mode, 0, false⟩]
          ++ imgsExp tt false mode rng cnt rest1
        = imgs ++ imgsExp tt false mode rng cnt (r :: rest1) := by
      simp [imgsExp, augOf]
    rw [himgs]

/-- A loop segment in which no image decodes touches nothing: every index is
skipped. -/
theorem processLoop_all_skip (tt : List (DecodedImg → DecodedImg)) (tr : Bool)
    (ac : Option String) (gtFeats : Option (List ImgRef)) (mode : String)
    (rng : Nat → Bool) (l : List (Nat × ImgRef)) :
    ∀ (imgs gts : List ProcessedTensor) (cnt : Nat),
      (∀ p ∈ l, (p.2).decodable = false) →
      processLoop tt tr ac gtFeats mode rng l (imgs, gts, cnt)
        = Except.ok (imgs, gts) := by
  induction l with
  | nil => intro imgs gts cnt h; rfl
  | cons p rest ih =>
    intro imgs gts cnt h
    obtain ⟨idx, r⟩ := p
    have hr : r.decodable = false := h (idx, r) (List.mem_cons_self _ _)
    rw [processLoop_cons_of_item_skip tt tr ac gtFeats mode rng idx r rest imgs
      gts cnt (processItem_skip tt tr ac gtFeats mode (rng cnt) idx r hr)]
    exact ih imgs gts cnt (fun q hq => h q (List.mem_cons_of_mem _ hq))

/-- A loop segment with a truthy annotation column in which every item either
fails image decoding or fully succeeds reaches the remaining items in some
accumulator state without raising. -/
theorem processLoop_prefix_reaches (tt : List (DecodedImg → DecodedImg))
    (tr : Bool) (a : String) (fs : List ImgRef) (mode : String)
    (rng : Nat → Bool) (pre : List (Nat × ImgRef)) (ha : ¬ a = "") :
    ∀ (rest : List (Nat × ImgRef)) (imgs gts : List ProcessedTensor)
      (cnt : Nat),
      (∀ p ∈ pre, (p.2).decodable = false ∨
        ((p.2).decodable = true ∧
          ∃ gf, fs.get? p.1 = some gf ∧ gf.decodable = true)) →
      ∃ (imgs2 gts2 : List ProcessedTensor) (cnt2 : Nat),
        processLoop tt tr (some a) (some fs) mode rng (pre ++ rest)
            (imgs, gts, cnt)
          = processLoop tt tr (some a) (some fs) mode rng rest
              (imgs2, gts2, cnt2) := by
  induction pre with
  | nil => intro rest imgs gts cnt h; exact ⟨imgs, gts, cnt, rfl⟩
  | cons p rest1 ih =>
    intro rest imgs gts cnt h
    obtain ⟨idx, r⟩ := p
    rcases h (idx, r) (List.mem_cons_self _ _) with hbad | ⟨hgood, gf, hgf, hgfd⟩
    · rw [List.cons_append, processLoop_cons_of_item_skip tt tr (some a)
        (some fs) mode rng idx r (rest1 ++ rest) imgs gts cnt
        (processItem_skip tt tr (some a) (some fs) mode (rng cnt) idx r hbad)]
      exact ih rest imgs gts cnt (fun q hq => h q (List.mem_cons_of_mem _ hq))
    · rw [List.cons_append, processLoop_cons_of_item_ok_some tt tr (some a)
        (some fs) mode rng idx r (rest1 ++ rest) imgs gts cnt _ _
        (processItem_ok_gt tt tr a fs mode (rng cnt) idx r gf ha hgood hgf hgfd)]
      exact ih rest _ _ _ (fun q hq => h q (List.mem_cons_of_mem _ hq))

/-- If no column of the feature-modality map carries the ground-truth tag,
the scan leaves `annotation_column` at its initial Python `None`. -/
theorem resolveColumns_snd_none (fm : List (String × String))
    (h : ∀ p ∈ fm, p.2 ≠ SEMANTIC_SEGMENTATION_GT) :
    (resolveColumns fm).2 = none := by
  have key : ∀ (l : List (String × String)) (st : Option String × Option String),
      st.2 = none → (∀ p ∈ l, p.2 ≠ SEMANTIC_SEGMENTATION_GT) →
      (l.foldl
        (fun st p =>
          let st1 := if p.2 = SEMANTIC_SEGMENTATION_IMG then (some p.1, st.2) else st
          if p.2 = SEMANTIC_SEGMENTATION_GT then (st1.1, some p.1) else st1)
        st).2 = none := by
    intro l
    induction l with
    | nil => intro st h1 h2; exact h1
    | cons p rest ih =>
      intro st h1 h2
      have hp : p.2 ≠ SEMANTIC_SEGMENTATION_GT := h2 p (List.mem_cons_self _ _)
      simp only [List.foldl_cons]
      refine ih _ ?_ (fun q hq => h2 q (List.mem_cons_of_mem _ hq))
      have hne : SEMANTIC_SEGMENTATION_IMG ≠ SEMANTIC_SEGMENTATION_GT := by
        decide
      by_cases himg : p.2 = SEMANTIC_SEGMENTATION_IMG <;>
        simp [himg, hp, h1, hne]
  exact key fm (none, none) rfl h

/-- C9: constructing the processor with `max_img_num_per_col` equal to 0 or
to any negative value stores an effective cap of 1 (the value the truncation
in `process_one_sample` uses); the constructor is a total function, so the
value is normalized, not rejected. -/
theorem C9_nonpositive_cap_reset_to_one (prefx : String) (image_size : Nat)
    (img_transforms gt_transforms train_transforms : List String)
    (norm_type : Option String) (max_img_num_per_col : Int)
    (missing_value_strategy : String) (requires_column_info : Bool)
    (hm : max_img_num_per_col ≤ 0) :
    (SemanticSegImageProcessor.init prefx image_size img_transforms
        gt_transforms train_transforms norm_type max_img_num_per_col
        missing_value_strategy requires_column_info).max_img_num_per_col
      = 1 := by
  unfold SemanticSegImageProcessor.init
  simp [hm]

/-- C9 witness: a concrete construction with a negative cap. -/
theorem C9_witness :
    (SemanticSegImageProcessor.init "model1" 224 ["resize_to_square"]
        ["resize_gt_to_square"] ["random_horizontal_flip"] (some "imagenet")
        (-3) "skip" false).max_img_num_per_col = 1 :=
  C9_nonpositive_cap_reset_to_one "model1" 224 ["resize_to_square"]
    ["resize_gt_to_square"] ["random_horizontal_flip"] (some "imagenet")
    (-3) "skip" false (by decide)

/-- C6: whenever the processor was constructed with `requires_column_info`
set, `collate_fn` immediately yields the unsupported-configuration
`NotImplementedError` (note: the source returns the exception object rather
than raising it) and never yields a collator mapping. -/
theorem C6_requires_column_info_unsupported (P : SemanticSegImageProcessor)
    (h : P.requires_column_info = true) :
    collate_fn P = CollateFnResult.notImplementedError
        "requires_column_info=True not implemented for semantic segmentation tasks."
      ∧ ∀ fn, collate_fn P ≠ CollateFnResult.mapping fn := by
  refine ⟨by simp [collate_fn, h], ?_⟩
  intro fn hc
  simp [collate_fn, h] at hc

/-- C6 witness: a concrete processor with the flag set. -/
theorem C6_witness :
    collate_fn (SemanticSegImageProcessor.init "model1" 224 [] [] [] none 1
        "skip" true)
      = CollateFnResult.notImplementedError
        "requires_column_info=True not implemented for semantic segmentation tasks." :=
  (C6_requires_column_info_unsupported
    (SemanticSegImageProcessor.init "model1" 224 [] [] [] none 1 "skip" true)
    rfl).1

/-- C7 counterexample: a single raw-bytes reference (a `bytearray` value,
which is an Image Reference per the spec but is not a Python `str`) is left
unchanged by the facade normalization instead of being wrapped into a
one-element list, so the claim that every single-reference entry is wrapped
is false. -/
theorem C7_counterexample :
    callNormalize [("img", CallValue.single (ImgRef.bytes 7 true))]
        = [("img", CallValue.single (ImgRef.bytes 7 true))]
      ∧ callNormalize [("img", CallValue.single (ImgRef.bytes 7 true))]
        ≠ [("img", CallValue.list [ImgRef.bytes 7 true])] := by
  constructor
  · rfl
  · decide

/-- C7 amended: the facade normalization of `__call__` wraps exactly the
entries holding a single string reference (file path or URL) into
one-element lists; entries already holding a list, and entries holding a
single raw-bytes reference, pass through unchanged, with keys and entry
order preserved. -/
theorem C7_amended_wraps_only_str (images : List (String × CallValue))
    (j : Nat) (k : String) (v : CallValue)
    (hj : images.get? j = some (k, v)) :
    (callNormalize images).get? j = some (k, pyWrapIfStr v)
      ∧ (∀ s ok, v = CallValue.single (ImgRef.str s ok) →
          pyWrapIfStr v = CallValue.list [ImgRef.str s ok])
      ∧ ((∀ s ok, v ≠ CallValue.single (ImgRef.str s ok)) →
          pyWrapIfStr v = v) := by
  refine ⟨?_, ?_, ?_⟩
  · unfold callNormalize
    rw [List.get?_eq_getElem?] at hj ⊢
    simp [List.getElem?_map, hj]
  · intro s ok hv
    subst hv
    rfl
  · intro hv
    cases v with
    | single r =>
      cases r with
      | str s ok => exact absurd rfl (hv s ok)
      | bytes b ok => rfl
    | list rs => rfl

/-- C7 witness: a single string reference is wrapped into a one-element
list. -/
theorem C7_witness :
    (callNormalize [("img", CallValue.single (ImgRef.str 5 true))]).get? 0
      = some ("img", CallValue.list [ImgRef.str 5 true]) :=
  (C7_amended_wraps_only_str [("img", CallValue.single (ImgRef.str 5 true))]
    0 "img" (CallValue.single (ImgRef.str 5 true)) rfl).1

/-- C2: an iteration whose image reference fails to decode is skipped
entirely: the iteration result is the skip marker (`continue`), and for any
accumulator state the loop on that item equals the loop on the remaining
items with images, masks and the draw counter untouched — no mask decode is
attempted (the result does not depend on the mask references) and no
exception propagates from that index. -/
theorem C2_image_decode_failure_skips_index
    (tt : List (DecodedImg → DecodedImg)) (tr : Bool) (ac : Option String)
    (gtFeats : Option (List ImgRef)) (mode : String) (rng : Nat → Bool)
    (idx : Nat) (r : ImgRef) (rest : List (Nat × ImgRef))
    (imgs gts : List ProcessedTensor) (cnt : Nat)
    (hdec : decodeImage r mode = none) :
    processItem tt tr ac gtFeats mode (rng cnt) idx r = Except.ok none
      ∧ processLoop tt tr ac gtFeats mode rng ((idx, r) :: rest)
          (imgs, gts, cnt)
        = processLoop tt tr ac gtFeats mode rng rest (imgs, gts, cnt) := by
  have hr : r.decodable = false := by
    unfold decodeImage at hdec
    by_cases h : r.decodable = true
    · rw [h] at hdec; simp at hdec
    · exact Bool.not_eq_true _ ▸ h
  have h := processItem_skip tt tr ac gtFeats mode (rng cnt) idx r hr
  exact ⟨h, processLoop_cons_of_item_skip tt tr ac gtFeats mode rng idx r rest
    imgs gts cnt h⟩

/-- C2 witness: a concrete undecodable reference in training mode with a
mask column: the index is dropped and processing continues. -/
theorem C2_witness :
    processItem (get_train_transforms ["random_horizontal_flip"]) true
        (some "gt") (some [ImgRef.str 11 true]) "RGB"
        ((fun _ => true) 0) 0 (ImgRef.str 1 false)
      = Except.ok none
      ∧ processLoop (get_train_transforms ["random_horizontal_flip"]) true
          (some "gt") (some [ImgRef.str 11 true]) "RGB" (fun _ => true)
          ((0, ImgRef.str 1 false) :: [(1, ImgRef.str 2 false)]) ([], [], 0)
        = processLoop (get_train_transforms ["random_horizontal_flip"]) true
            (some "gt") (some [ImgRef.str 11 true]) "RGB" (fun _ => true)
            [(1, ImgRef.str 2 false)] ([], [], 0) :=
  C2_image_decode_failure_skips_index
    (get_train_transforms ["random_horizontal_flip"]) true (some "gt")
    (some [ImgRef.str 11 true]) "RGB" (fun _ => true) 0 (ImgRef.str 1 false)
    [(1, ImgRef.str 2 false)] [] [] 0 rfl

/-- C10: in training mode, a sample whose feature-modality map carries no
ground-truth-tagged column makes `process_one_sample` raise a KeyError (the
lookup `image_features[None]`) before any image is decoded: the conclusion
holds for every content of the image-reference lists and every random
stream, so no decode outcome is ever consulted, and no output record is
produced. -/
theorem C10_training_without_gt_column_raises (P : SemanticSegImageProcessor)
    (image_features : List (String × List ImgRef))
    (fm : List (String × String)) (mode : String) (rng : Nat → Bool)
    (ic : String) (feats : List ImgRef)
    (hnogt : ∀ p ∈ fm, p.2 ≠ SEMANTIC_SEGMENTATION_GT)
    (hres1 : (resolveColumns fm).1 = some ic)
    (hic : dictGet image_features ic = some feats) :
    process_one_sample P image_features fm true mode rng
      = Except.error PyError.keyError := by
  have h2 := resolveColumns_snd_none fm hnogt
  have hrc : resolveColumns fm = (some ic, none) := by
    rcases hx : resolveColumns fm with ⟨x, y⟩
    rw [hx] at hres1 h2
    simp only at hres1 h2
    rw [hres1, h2]
  unfold process_one_sample
  rw [hrc]
  simp [hic, fetchGtFeatures]

/-- C10 witness: a concrete training sample with only an image column; its
two references are perfectly decodable, yet the KeyError fires first. -/
theorem C10_witness :
    process_one_sample
        (SemanticSegImageProcessor.init "model1" 224 [] [] [] none 2 "skip"
          false)
        [("imgcol", [ImgRef.str 1 true, ImgRef.str 2 true])]
        [("imgcol", "semantic_segmentation_img")] true "RGB" (fun _ => false)
      = Except.error PyError.keyError :=
  C10_training_without_gt_column_raises
    (SemanticSegImageProcessor.init "model1" 224 [] [] [] none 2 "skip" false)
    [("imgcol", [ImgRef.str 1 true, ImgRef.str 2 true])]
    [("imgcol", "semantic_segmentation_img")] "RGB" (fun _ => false) "imgcol"
    [ImgRef.str 1 true, ImgRef.str 2 true] (by decide) (by decide) rfl

/-- Second components of enumerated items are elements of the underlying
list. -/
theorem snd_mem_of_mem_enumFrom2 {p : Nat × ImgRef} {l : List ImgRef}
    {n : Nat} (h : p ∈ l.enumFrom n) : p.2 ∈ l :=
  List.snd_mem_of_mem_enumFrom h

/-- C8: a sample every one of whose retained image references fails to
decode produces, without raising, the record with valid count 0 and both
stacked tensors empty, provided the sample reaches the loop (its image
column resolves and is present, and the ground-truth fetch succeeds). -/
theorem C8_all_decode_failures_empty_record (P : SemanticSegImageProcessor)
    (image_features : List (String × List ImgRef))
    (fm : List (String × String)) (tr : Bool) (mode : String)
    (rng : Nat → Bool) (ic : String) (ac : Option String)
    (feats : List ImgRef) (gtFeats : Option (List ImgRef))
    (hres : resolveColumns fm = (some ic, ac))
    (hic : dictGet image_features ic = some feats)
    (hfetch : fetchGtFeatures image_features tr ac = Except.ok gtFeats)
    (hbad : ∀ r ∈ feats.take P.max_img_num_per_col, r.decodable = false) :
    process_one_sample P image_features fm tr mode rng
      = Except.ok ⟨[], 0, []⟩ := by
  unfold process_one_sample
  rw [hres]
  simp only [hic, hfetch]
  rw [List.enum_eq_enumFrom,
    processLoop_all_skip (get_train_transforms P.train_transform_names) tr ac
      gtFeats mode rng
      ((feats.take P.max_img_num_per_col).enumFrom 0) [] [] 0
      (fun p hp => hbad p.2 (snd_mem_of_mem_enumFrom2 hp))]
  rfl

/-- C8 witness: a non-training sample with a mask column whose two image
references are both undecodable: valid count 0, both tensors empty, no
exception. -/
theorem C8_witness :
    process_one_sample
        (SemanticSegImageProcessor.init "model1" 224 [] [] [] none 5 "skip"
          false)
        [("imgcol", [ImgRef.str 1 false, ImgRef.bytes 2 false]),
         ("gtcol", [ImgRef.str 11 true, ImgRef.str 12 true])]
        [("imgcol", "semantic_segmentation_img"),
         ("gtcol", "semantic_segmentation_gt")] false "RGB" (fun _ => true)
      = Except.ok ⟨[], 0, []⟩ :=
  C8_all_decode_failures_empty_record
    (SemanticSegImageProcessor.init "model1" 224 [] [] [] none 5 "skip" false)
    [("imgcol", [ImgRef.str 1 false, ImgRef.bytes 2 false]),
     ("gtcol", [ImgRef.str 11 true, ImgRef.str 12 true])]
    [("imgcol", "semantic_segmentation_img"),
     ("gtcol", "semantic_segmentation_gt")] false "RGB" (fun _ => true)
    "imgcol" (some "gtcol") [ImgRef.str 1 false, ImgRef.bytes 2 false]
    (some [ImgRef.str 11 true, ImgRef.str 12 true]) (by decide) rfl rfl
    (by decide)

/-- C5: for a retained item with a truthy mask column whose image and mask
both decode, the loop appends one processed image and one processed mask
such that the composed augmentation transform was invoked on them exactly
when training and the draw for this item succeeded (`tr && rng cnt`), the
identical composed transform acted on both (equal invocation flags and
equal flip counts), its effect preceding the role-specific pipelines, and
the draw counter advances only in training mode. -/
theorem C5_synchronized_augmentation_gating (ns : List String) (tr : Bool)
    (a : String) (fs : List ImgRef) (mode : String) (rng : Nat → Bool)
    (idx : Nat) (r gf : ImgRef) (rest : List (Nat × ImgRef))
    (imgs gts : List ProcessedTensor) (cnt : Nat)
    (ha : ¬ a = "") (hr : r.decodable = true)
    (hgf : fs.get? idx = some gf) (hgfd : gf.decodable = true) :
    ∃ iP gP : ProcessedTensor,
      processLoop (get_train_transforms ns) tr (some a) (some fs) mode rng
          ((idx, r) :: rest) (imgs, gts, cnt)
        = processLoop (get_train_transforms ns) tr (some a) (some fs) mode rng
            rest (imgs ++ [iP], gts ++ [gP], if tr then cnt + 1 else cnt)
      ∧ iP.trainApplied = (tr && rng cnt)
      ∧ gP.trainApplied = (tr && rng cnt)
      ∧ iP.flips = (if tr && rng cnt then (get_train_transforms ns).length
          else 0)
      ∧ gP.flips = iP.flips := by
  refine ⟨img_processor (augOf (get_train_transforms ns) (tr && rng cnt)
      ⟨r.refId, mode, 0, false⟩),
    gt_processor (augOf (get_train_transforms ns) (tr && rng cnt)
      ⟨gf.refId, "L", 0, false⟩),
    processLoop_cons_of_item_ok_some (get_train_transforms ns) tr (some a)
      (some fs) mode rng idx r rest imgs gts cnt _ _
      (processItem_ok_gt (get_train_transforms ns) tr a fs mode (rng cnt)
        idx r gf ha hr hgf hgfd),
    ?_, ?_, ?_, ?_⟩
  all_goals
    by_cases hcoin : (tr && rng cnt) = true <;>
      simp [augOf, hcoin, applyTrainTransforms_get, img_processor,
        gt_processor]

/-- C5 witness: training mode, coin succeeds for the item at draw counter 0,
one flip configured: both outputs carry the invocation flag and one flip. -/
theorem C5_witness :
    ∃ iP gP : ProcessedTensor,
      processLoop (get_train_transforms ["random_horizontal_flip"]) true
          (some "gtcol") (some [ImgRef.str 11 true]) "RGB" (fun _ => true)
          ((0, ImgRef.str 1 true) :: []) ([], [], 0)
        = processLoop (get_train_transforms ["random_horizontal_flip"]) true
            (some "gtcol") (some [ImgRef.str 11 true]) "RGB" (fun _ => true)
            [] ([] ++ [iP], [] ++ [gP], if true then 0 + 1 else 0)
      ∧ iP.trainApplied = (true && (fun _ : Nat => true) 0)
      ∧ gP.trainApplied = (true && (fun _ : Nat => true) 0)
      ∧ iP.flips = (if true && (fun _ : Nat => true) 0 then
          (get_train_transforms ["random_horizontal_flip"]).length else 0)
      ∧ gP.flips = iP.flips :=
  C5_synchronized_augmentation_gating ["random_horizontal_flip"] true "gtcol"
    [ImgRef.str 11 true] "RGB" (fun _ => true) 0 (ImgRef.str 1 true)
    (ImgRef.str 11 true) [] [] [] 0 (by decide) rfl rfl rfl

/-- C4: a sample whose image column holds `k ≤ max_img_num_per_col`
references, all decodable, with no decode failures on the mask side either
(whenever a ground-truth list is needed it is present, long enough, and
fully decodable), produces a record whose valid count is `k` and whose
stacked image tensor has leading dimension `k`, every entry being a
3-channel processed tensor as the pipeline-builder contract promises. -/
theorem C4_valid_count_equals_k (P : SemanticSegImageProcessor)
    (image_features : List (String × List ImgRef))
    (fm : List (String × String)) (tr : Bool) (mode : String)
    (rng : Nat → Bool) (ic : String) (ac : Option String)
    (feats : List ImgRef) (k : Nat)
    (hres : resolveColumns fm = (some ic, ac))
    (hic : dictGet image_features ic = some feats)
    (hk : feats.length = k) (hkm : k ≤ P.max_img_num_per_col)
    (hdec : ∀ r ∈ feats, r.decodable = true)
    (hgt : tr = true ∨ ac.isSome = true →
      ∃ a fs, ac = some a ∧ ¬ a = "" ∧ dictGet image_features a = some fs ∧
        ∀ j, j < k → ∃ gf, fs.get? j = some gf ∧ gf.decodable = true) :
    ∃ ret : SampleRet,
      process_one_sample P image_features fm tr mode rng = Except.ok ret
        ∧ ret.image_valid_num = k
        ∧ leadingDim ret.image_tensor = k
        ∧ ∀ pt ∈ ret.image_tensor, pt.channels = 3 := by
  have htake : feats.take P.max_img_num_per_col = feats :=
    List.take_of_length_le (by omega)
  by_cases hcase : tr = true ∨ ac.isSome = true
  · obtain ⟨a, fs, hac, ha, hfs, hgok⟩ := hgt hcase
    subst hac
    have hfetch : fetchGtFeatures image_features tr (some a)
        = Except.ok (some fs) := by
      unfold fetchGtFeatures
      simp [hfs]
    have hloop := processLoop_prefix_gt
      (get_train_transforms P.train_transform_names) tr a fs mode rng feats ha
      0 0 [] [] []
      hdec
      (by
        intro j hj
        rw [Nat.zero_add]
        exact hgok j (by omega))
    rw [List.append_nil] at hloop
    unfold process_one_sample
    rw [hres]
    simp only [hic, hfetch]
    rw [List.enum_eq_enumFrom, htake, hloop]
    simp only [List.nil_append, processLoop]
    refine ⟨_, rfl, ?_, ?_, ?_⟩
    · simp [imgsExp_length, hk]
    · simp [leadingDim, imgsExp_length, hk]
    · intro pt hpt
      exact imgsExp_channels _ tr mode rng feats 0 pt hpt
  · push_neg at hcase
    obtain ⟨htr, hac⟩ := hcase
    have htr2 : tr = false := Bool.not_eq_true tr ▸ htr
    have hac2 : ac = none := Option.not_isSome_iff_eq_none.1
      (by simp [hac])
    subst htr2; subst hac2
    have hfetch : fetchGtFeatures image_features false none
        = Except.ok none := rfl
    have hloop := processLoop_prefix_noGt
      (get_train_transforms P.train_transform_names) none mode rng feats
      0 0 [] [] [] hdec
    rw [List.append_nil] at hloop
    unfold process_one_sample
    rw [hres]
    simp only [hic, hfetch]
    rw [List.enum_eq_enumFrom, htake, hloop]
    simp only [List.nil_append, processLoop]
    refine ⟨_, rfl, ?_, ?_, ?_⟩
    · simp [imgsExp_length, hk]
    · simp [leadingDim, imgsExp_length, hk]
    · intro pt hpt
      exact imgsExp_channels _ false mode rng feats 0 pt hpt

/-- C4 witness: three decodable references with cap 5 and a mask column of
three decodable masks, outside training: valid count and leading dimension
are 3 and every image entry has 3 channels. -/
theorem C4_witness :
    ∃ ret : SampleRet,
      process_one_sample
          (SemanticSegImageProcessor.init "model1" 224 [] [] [] none 5 "skip"
            false)
          [("imgcol", [ImgRef.str 1 true, ImgRef.str 2 true,
            ImgRef.str 3 true]),
           ("gtcol", [ImgRef.str 11 true, ImgRef.str 12 true,
            ImgRef.str 13 true])]
          [("imgcol", "semantic_segmentation_img"),
           ("gtcol", "semantic_segmentation_gt")] false "RGB" (fun _ => false)
        = Except.ok ret
        ∧ ret.image_valid_num = 3
        ∧ leadingDim ret.image_tensor = 3
        ∧ ∀ pt ∈ ret.image_tensor, pt.channels = 3 :=
  C4_valid_count_equals_k
    (SemanticSegImageProcessor.init "model1" 224 [] [] [] none 5 "skip" false)
    [("imgcol", [ImgRef.str 1 true, ImgRef.str 2 true, ImgRef.str 3 true]),
     ("gtcol", [ImgRef.str 11 true, ImgRef.str 12 true, ImgRef.str 13 true])]
    [("imgcol", "semantic_segmentation_img"),
     ("gtcol", "semantic_segmentation_gt")] false "RGB" (fun _ => false)
    "imgcol" (some "gtcol")
    [ImgRef.str 1 true, ImgRef.str 2 true, ImgRef.str 3 true] 3
    (by decide) rfl rfl (by decide) (by decide)
    (fun _ => ⟨"gtcol",
      [ImgRef.str 11 true, ImgRef.str 12 true, ImgRef.str 13 true],
      rfl, by decide, rfl, by decide⟩)

/-- Members of an enumerated list are position-element pairs: the element is
found in the underlying list at the stated index. -/
theorem mem_enumFrom_char {l : List ImgRef} {p : Nat × ImgRef} :
    ∀ n : Nat, p ∈ l.enumFrom n → n ≤ p.1 ∧ l.get? (p.1 - n) = some p.2 := by
  induction l with
  | nil => intro n h; simp [List.enumFrom] at h
  | cons x rest ih =>
    intro n h
    rw [List.enumFrom] at h
    rcases List.mem_cons.1 h with h1 | h2
    · subst h1
      simp
    · obtain ⟨h3, h4⟩ := ih (n + 1) h2
      refine ⟨by omega, ?_⟩
      have hd : p.1 - n = (p.1 - (n + 1)) + 1 := by omega
      rw [hd, List.get?_cons_succ]
      exact h4

/-- C1: for a sample with a truthy mask column, every retained image
reference decodable and every paired mask reference present and decodable
(no decode failures), the produced record has its stacked mask tensor of
the same leading dimension as the stacked image tensor, and for every
stacked position j the image entry derives from the image reference at
source index j while the mask entry derives from the mask reference at the
same source index j. -/
theorem C1_mask_image_index_alignment (P : SemanticSegImageProcessor)
    (image_features : List (String × List ImgRef))
    (fm : List (String × String)) (tr : Bool) (mode : String)
    (rng : Nat → Bool) (ic a : String) (feats fs : List ImgRef)
    (hres : resolveColumns fm = (some ic, some a)) (ha : ¬ a = "")
    (hic : dictGet image_features ic = some feats)
    (hgt : dictGet image_features a = some fs)
    (hdec : ∀ r ∈ feats.take P.max_img_num_per_col, r.decodable = true)
    (hgok : ∀ j, j < (feats.take P.max_img_num_per_col).length →
      ∃ gf, fs.get? j = some gf ∧ gf.decodable = true) :
    ∃ ret : SampleRet,
      process_one_sample P image_features fm tr mode rng = Except.ok ret
        ∧ leadingDim ret.label_tensor = leadingDim ret.image_tensor
        ∧ ∀ j, j < leadingDim ret.image_tensor →
            ((ret.image_tensor.get? j).map ProcessedTensor.srcId
                = (feats.get? j).map ImgRef.refId
              ∧ (ret.label_tensor.get? j).map ProcessedTensor.srcId
                = (fs.get? j).map ImgRef.refId) := by
  have hfetch : fetchGtFeatures image_features tr (some a)
      = Except.ok (some fs) := by
    unfold fetchGtFeatures
    simp [hgt]
  have hloop := processLoop_prefix_gt
    (get_train_transforms P.train_transform_names) tr a fs mode rng
    (feats.take P.max_img_num_per_col) ha 0 0 [] [] []
    hdec
    (by
      intro j hj
      rw [Nat.zero_add]
      exact hgok j hj)
  rw [List.append_nil] at hloop
  unfold process_one_sample
  rw [hres]
  simp only [hic, hfetch]
  rw [List.enum_eq_enumFrom, hloop]
  simp only [List.nil_append, processLoop]
  refine ⟨_, rfl, ?_, ?_⟩
  · simp [leadingDim, imgsExp_length, gtsExp_length]
  · intro j hj
    simp only [leadingDim] at hj
    rw [imgsExp_length] at hj
    constructor
    · rw [imgsExp_srcId P.train_transform_names tr mode rng
        (feats.take P.max_img_num_per_col) 0 j]
      have hjm : j < P.max_img_num_per_col := by
        have := List.length_take P.max_img_num_per_col feats
        omega
      rw [List.get?_eq_getElem?, List.get?_eq_getElem?,
        List.getElem?_take_of_lt hjm]
    · rw [gtsExp_srcId P.train_transform_names tr fs rng
        (feats.take P.max_img_num_per_col) 0 0 j hj]
      obtain ⟨gf, hgf, _⟩ := hgok j hj
      rw [Nat.zero_add, hgf]
      rfl

/-- C1 witness: two decodable image references paired with two decodable
mask references, outside training: equal leading dimensions and matched
provenance at both stacked positions. -/
theorem C1_witness :
    ∃ ret : SampleRet,
      process_one_sample
          (SemanticSegImageProcessor.init "model1" 224 [] [] [] none 5 "skip"
            false)
          [("imgcol", [ImgRef.str 1 true, ImgRef.str 2 true]),
           ("gtcol", [ImgRef.str 11 true, ImgRef.str 12 true])]
          [("imgcol", "semantic_segmentation_img"),
           ("gtcol", "semantic_segmentation_gt")] false "RGB" (fun _ => false)
        = Except.ok ret
        ∧ leadingDim ret.label_tensor = leadingDim ret.image_tensor
        ∧ ∀ j, j < leadingDim ret.image_tensor →
            ((ret.image_tensor.get? j).map ProcessedTensor.srcId
                = ([ImgRef.str 1 true, ImgRef.str 2 true].get? j).map
                  ImgRef.refId
              ∧ (ret.label_tensor.get? j).map ProcessedTensor.srcId
                = ([ImgRef.str 11 true, ImgRef.str 12 true].get? j).map
                  ImgRef.refId) :=
  C1_mask_image_index_alignment
    (SemanticSegImageProcessor.init "model1" 224 [] [] [] none 5 "skip" false)
    [("imgcol", [ImgRef.str 1 true, ImgRef.str 2 true]),
     ("gtcol", [ImgRef.str 11 true, ImgRef.str 12 true])]
    [("imgcol", "semantic_segmentation_img"),
     ("gtcol", "semantic_segmentation_gt")] false "RGB" (fun _ => false)
    "imgcol" "gtcol" [ImgRef.str 1 true, ImgRef.str 2 true]
    [ImgRef.str 11 true, ImgRef.str 12 true]
    (by decide) (by decide) rfl rfl (by decide)
    (by
      intro j hj
      have hj2 : j < 2 := by
        have := by simpa using hj
        exact this.2
      interval_cases j
      · exact ⟨ImgRef.str 11 true, rfl, rfl⟩
      · exact ⟨ImgRef.str 12 true, rfl, rfl⟩)

/-- C3: for a sample with a truthy mask column, a retained index whose image
decodes while its paired mask reference fails to decode makes
`process_one_sample` propagate the decoding error to the caller, provided
every earlier retained index either was skipped for image-decode failure or
fully succeeded (so that no other error preempts this one). -/
theorem C3_mask_decode_failure_propagates (P : SemanticSegImageProcessor)
    (image_features : List (String × List ImgRef))
    (fm : List (String × String)) (tr : Bool) (mode : String)
    (rng : Nat → Bool) (ic a : String) (feats fs : List ImgRef) (i : Nat)
    (ri gf : ImgRef)
    (hres : resolveColumns fm = (some ic, some a)) (ha : ¬ a = "")
    (hic : dictGet image_features ic = some feats)
    (hgt : dictGet image_features a = some fs)
    (hri : (feats.take P.max_img_num_per_col).get? i = some ri)
    (hrid : ri.decodable = true)
    (hgfI : fs.get? i = some gf) (hgfd : gf.decodable = false)
    (hpre : ∀ j x, j < i →
      (feats.take P.max_img_num_per_col).get? j = some x →
      x.decodable = false ∨ (x.decodable = true ∧
        ∃ gf2, fs.get? j = some gf2 ∧ gf2.decodable = true)) :
    process_one_sample P image_features fm tr mode rng
      = Except.error PyError.decodeError := by
  have hfetch : fetchGtFeatures image_features tr (some a)
      = Except.ok (some fs) := by
    unfold fetchGtFeatures
    simp [hgt]
  have hri2 : (feats.take P.max_img_num_per_col)[i]? = some ri := by
    rw [← List.get?_eq_getElem?]; exact hri
  obtain ⟨hi, hTi⟩ := List.getElem?_eq_some_iff.1 hri2
  have hlen : ((feats.take P.max_img_num_per_col).take i).length = i := by
    rw [List.length_take]
    omega
  have hsplit : (feats.take P.max_img_num_per_col).enumFrom 0
      = ((feats.take P.max_img_num_per_col).take i).enumFrom 0
        ++ (((feats.take P.max_img_num_per_col).drop i).enumFrom i) := by
    conv_lhs => rw [← List.take_append_drop i
      (feats.take P.max_img_num_per_col)]
    rw [List.enumFrom_append, hlen, Nat.zero_add]
  have hdrop : (feats.take P.max_img_num_per_col).drop i
      = ri :: (feats.take P.max_img_num_per_col).drop (i + 1) := by
    rw [List.drop_eq_getElem_cons hi, hTi]
  obtain ⟨imgs2, gts2, cnt2, hreach⟩ := processLoop_prefix_reaches
    (get_train_transforms P.train_transform_names) tr a fs mode rng
    (((feats.take P.max_img_num_per_col).take i).enumFrom 0) ha
    (((feats.take P.max_img_num_per_col).drop i).enumFrom i) [] [] 0
    (by
      intro p hp
      obtain ⟨_, hpg⟩ := mem_enumFrom_char 0 hp
      rw [Nat.sub_zero] at hpg
      have hplt : p.1 < i := by
        have : p.1 < ((feats.take P.max_img_num_per_col).take i).length := by
          rw [List.get?_eq_getElem?] at hpg
          exact (List.getElem?_eq_some_iff.1 hpg).1
        omega
      have hpg2 : (feats.take P.max_img_num_per_col).get? p.1 = some p.2 := by
        rw [List.get?_eq_getElem?] at hpg ⊢
        rw [← List.getElem?_take_of_lt hplt]
        exact hpg
      exact hpre p.1 p.2 hplt hpg2)
  unfold process_one_sample
  rw [hres]
  simp only [hic, hfetch]
  rw [List.enum_eq_enumFrom, hsplit, hreach, hdrop, List.enumFrom,
    processLoop_cons_of_item_error
      (get_train_transforms P.train_transform_names) tr (some a) (some fs)
      mode rng i ri _ imgs2 gts2 cnt2 PyError.decodeError
      (processItem_gtFail (get_train_transforms P.train_transform_names) tr a
        fs mode (rng cnt2) i ri gf ha hrid hgfI hgfd)]

/-- C3 witness: the image at retained index 1 decodes (index 0 fully
succeeded) but its paired mask is undecodable: the sample call reports the
decoding error. -/
theorem C3_witness :
    process_one_sample
        (SemanticSegImageProcessor.init "model1" 224 [] [] [] none 5 "skip"
          false)
        [("imgcol", [ImgRef.str 1 true, ImgRef.str 2 true]),
         ("gtcol", [ImgRef.str 11 true, ImgRef.str 12 false])]
        [("imgcol", "semantic_segmentation_img"),
         ("gtcol", "semantic_segmentation_gt")] false "RGB" (fun _ => false)
      = Except.error PyError.decodeError :=
  C3_mask_decode_failure_propagates
    (SemanticSegImageProcessor.init "model1" 224 [] [] [] none 5 "skip" false)
    [("imgcol", [ImgRef.str 1 true, ImgRef.str 2 true]),
     ("gtcol", [ImgRef.str 11 true, ImgRef.str 12 false])]
    [("imgcol", "semantic_segmentation_img"),
     ("gtcol", "semantic_segmentation_gt")] false "RGB" (fun _ => false)
    "imgcol" "gtcol" [ImgRef.str 1 true, ImgRef.str 2 true]
    [ImgRef.str 11 true, ImgRef.str 12 false] 1 (ImgRef.str 2 true)
    (ImgRef.str 12 false)
    (by decide) (by decide) rfl rfl rfl rfl rfl rfl
    (by
      intro j x hj hx
      interval_cases j
      injection hx with hx2
      subst hx2
      exact Or.inr ⟨rfl, ImgRef.str 11 true, rfl, rfl⟩)

end AutogluonSemSeg
